import Mathlib

/-!
Verification development for the FreshestCam fruit-analysis backend.

The definitions below are a shallow embedding of the two Python modules
`backend/services/cv_service.py` and `backend/services/openai_service.py`.
External provider calls (Roboflow inference, OpenAI chat completions) are
modelled by explicit parameters carrying either the provider reply or the
fact that the call raised; everything the repository itself computes (string
cleaning, JSON decoding of the LLM reply, the fallback resolver) is embedded
as executable Lean functions.  Machine floats are modelled as exact rationals.
-/

/-! ## Python string primitives -/

/-- The six ASCII whitespace characters matched by the Python `str.split()`,
`str.strip()` and the regex class `\s` (ASCII fragment). -/
def isPySpace (c : Char) : Bool :=
  c == ' ' || c == '\t' || c == '\n' || c == '\r' || c == '\x0b' || c == '\x0c'

/-- Python `str.strip()`: drop leading and trailing whitespace. -/
def pyStrip (s : String) : String :=
  String.mk (((s.data.dropWhile isPySpace).reverse.dropWhile isPySpace).reverse)

/-- Python `str.lower()` (ASCII fragment). -/
def pyLowerStr (s : String) : String :=
  String.mk (s.data.map Char.toLower)

/-- Helper for `pySplit`: accumulate the current token (reversed) while
scanning the character list. -/
def pySplitAux : List Char → List Char → List String
  | acc, [] => if acc.isEmpty then [] else [String.mk acc.reverse]
  | acc, c :: t =>
    if isPySpace c then
      if acc.isEmpty then pySplitAux [] t
      else String.mk acc.reverse :: pySplitAux [] t
    else pySplitAux (c :: acc) t

/-- Python `str.split()` with no argument: split on whitespace runs,
dropping empty tokens. -/
def pySplit (s : String) : List String :=
  pySplitAux [] s.data

/-- the Python `lst[-1]` on a list, as an `Option` (`none` models the
`IndexError` raised on an empty list). -/
def pyLastTok : List String → Option String
  | [] => none
  | [t] => some t
  | _ :: t :: ts => pyLastTok (t :: ts)

/-- the Python substring test `needle in hay` on character lists. -/
def subOf (needle : List Char) : List Char → Bool
  | [] => needle.isEmpty
  | c :: t => needle.isPrefixOf (c :: t) || subOf needle t

/-- the Python substring test `needle in hay` on strings. -/
def strContains (hay needle : String) : Bool :=
  subOf needle.data hay.data

/-- Position of the first occurrence of `needle` in `hay` (`none` when the
needle does not occur).  This is a spec-side notion used to state what
"first match found in text order" would mean; the source code never
computes it. -/
def textPosOf (needle : List Char) : List Char → Option Nat
  | [] => if needle.isEmpty then some 0 else none
  | c :: t =>
    if needle.isPrefixOf (c :: t) then some 0
    else (textPosOf needle t).map (· + 1)

/-- Characters kept by `re.sub(r"[^a-z\s]", "", text)`. -/
def keepNameChar (c : Char) : Bool :=
  (decide ('a' ≤ c) && decide (c ≤ 'z')) || isPySpace c

/-! ## Python rounding

`round(x, 2)` in Python rounds half to even.  We model float values as exact
rationals, so this is round-half-even on `x * 100` divided back by 100. -/

/-- Round a rational to the nearest integer, halves to even
(the Python `round(_, 0)` policy). -/
def pyRoundHalfEven (q : ℚ) : ℤ :=
  let n : ℤ := q.floor
  let r : ℚ := q - (n : ℚ)
  if r < 1 / 2 then n
  else if 1 / 2 < r then n + 1
  else if n % 2 = 0 then n else n + 1

/-- Python `round(q, 2)` on exact rationals. -/
def pyRound2 (q : ℚ) : ℚ :=
  ((pyRoundHalfEven (q * 100) : ℤ) : ℚ) / 100

/-! ## JSON values and `json.loads`

A faithful executable model of the Python strict `json.loads` on the JSON
grammar (objects, arrays, strings with escapes, numbers, booleans, null).
Scope notes: the non-standard `NaN` / `Infinity` literals accepted by CPython
are not modelled, and `\uXXXX` escapes are decoded without surrogate-pair
combination; no claim in this development depends on either.  Numbers are
exact rationals. -/

inductive JVal where
  | null : JVal
  | bool (b : Bool) : JVal
  | num (q : ℚ) : JVal
  | str (s : String) : JVal
  | arr (elems : List JVal) : JVal
  | obj (fields : List (String × JVal)) : JVal
deriving BEq

/-- JSON insignificant whitespace. -/
def jsonWs (c : Char) : Bool :=
  c == ' ' || c == '\t' || c == '\n' || c == '\r'

/-- Skip JSON whitespace. -/
def skipWs (l : List Char) : List Char :=
  l.dropWhile jsonWs

/-- Hexadecimal digit value. -/
def hexVal (c : Char) : Option Nat :=
  if '0' ≤ c ∧ c ≤ '9' then some (c.toNat - '0'.toNat)
  else if 'a' ≤ c ∧ c ≤ 'f' then some (c.toNat - 'a'.toNat + 10)
  else if 'A' ≤ c ∧ c ≤ 'F' then some (c.toNat - 'A'.toNat + 10)
  else none

/-- Single-character JSON string escapes. -/
def jsonEscape (c : Char) : Option Char :=
  if c = '"' then some '"'
  else if c = '\\' then some '\\'
  else if c = '/' then some '/'
  else if c = 'b' then some '\x08'
  else if c = 'f' then some '\x0c'
  else if c = 'n' then some '\n'
  else if c = 'r' then some '\r'
  else if c = 't' then some '\t'
  else none

/-- Parse the body of a JSON string (the opening quote already consumed),
returning the decoded characters and the remaining input. -/
def parseJStr (acc : List Char) : List Char → Option (List Char × List Char)
  | [] => none
  | c :: rest =>
    if c = '"' then some (acc.reverse, rest)
    else if c = '\\' then
      match rest with
      | [] => none
      | e :: rest2 =>
        if e = 'u' then
          match rest2 with
          | h1 :: h2 :: h3 :: h4 :: rest6 =>
            match hexVal h1, hexVal h2, hexVal h3, hexVal h4 with
            | some a, some b, some c2, some d =>
              parseJStr (Char.ofNat (((a * 16 + b) * 16 + c2) * 16 + d) :: acc) rest6
            | _, _, _, _ => none
          | _ => none
        else
          match jsonEscape e with
          | some ec => parseJStr (ec :: acc) rest2
          | none => none
    else if c.toNat < 32 then none
    else parseJStr (c :: acc) rest

/-- Decimal digits to a natural number. -/
def digitsToNat (l : List Char) : Nat :=
  l.foldl (fun a c => a * 10 + (c.toNat - '0'.toNat)) 0

/-- Parse the tail of a JSON exponent (after `e`/`E`): optional sign and at
least one digit.  Returns (exponent is negative, exponent, rest). -/
def parseExpTail (t : List Char) : Option (Bool × Nat × List Char) :=
  let st : Bool × List Char :=
    match t with
    | '+' :: u => (false, u)
    | '-' :: u => (true, u)
    | _ => (false, t)
  let ds := st.2.takeWhile Char.isDigit
  if ds.isEmpty then none
  else some (st.1, digitsToNat ds, st.2.dropWhile Char.isDigit)

/-- Parse an optional JSON exponent part. -/
def parseExp (l : List Char) : Option (Bool × Nat × List Char) :=
  match l with
  | 'e' :: t => parseExpTail t
  | 'E' :: t => parseExpTail t
  | _ => some (false, 0, l)

/-- Apply a decimal exponent to a rational. -/
def applyExp (q : ℚ) (en : Bool) (e : Nat) : ℚ :=
  if en then q / ((10 : ℚ) ^ e) else q * ((10 : ℚ) ^ e)

/-- Parse a JSON number (strict grammar: optional minus, no leading zeros,
fraction requires a digit, exponent requires a digit). -/
def parseJNum (l : List Char) : Option (ℚ × List Char) :=
  let sr : Bool × List Char :=
    match l with
    | '-' :: t => (true, t)
    | _ => (false, l)
  let neg := sr.1
  match sr.2 with
  | [] => none
  | c :: t =>
    if !c.isDigit then none
    else if c == '0' && (t.headD ' ').isDigit then none
    else
      let ip := (c :: t).takeWhile Char.isDigit
      let r1 := (c :: t).dropWhile Char.isDigit
      match r1 with
      | '.' :: u =>
        let fp := u.takeWhile Char.isDigit
        if fp.isEmpty then none
        else
          match parseExp (u.dropWhile Char.isDigit) with
          | none => none
          | some (en, e, r3) =>
            let base : ℚ :=
              (digitsToNat ip : ℚ) + (digitsToNat fp : ℚ) / ((10 : ℚ) ^ fp.length)
            some (applyExp (if neg then -base else base) en e, r3)
      | _ =>
        match parseExp r1 with
        | none => none
        | some (en, e, r3) =>
          some (applyExp (if neg then -(digitsToNat ip : ℚ) else (digitsToNat ip : ℚ)) en e, r3)

mutual

/-- Fuel-indexed parser for one JSON value.  The fuel only bounds the
recursion depth of the mutual block; `jsonParse` supplies enough fuel that
it is never exhausted on its input. -/
def parseJVal : Nat → List Char → Option (JVal × List Char)
  | 0, _ => none
  | fuel + 1, l =>
    match skipWs l with
    | [] => none
    | c :: rest =>
      if c = '"' then
        match parseJStr [] rest with
        | some (cs, r) => some (.str (String.mk cs), r)
        | none => none
      else if c = '\x7b' then parseJObj fuel rest true []
      else if c = '[' then parseJArr fuel rest true []
      else if c = 't' then
        if rest.take 3 = ['r', 'u', 'e'] then some (.bool true, rest.drop 3) else none
      else if c = 'f' then
        if rest.take 4 = ['a', 'l', 's', 'e'] then some (.bool false, rest.drop 4) else none
      else if c = 'n' then
        if rest.take 3 = ['u', 'l', 'l'] then some (.null, rest.drop 3) else none
      else
        match parseJNum (c :: rest) with
        | some (q, r) => some (.num q, r)
        | none => none

/-- Parse the members of a JSON object, `first` marking the position right
after the opening brace (where an immediate closing brace is allowed). -/
def parseJObj : Nat → List Char → Bool → List (String × JVal) → Option (JVal × List Char)
  | 0, _, _, _ => none
  | fuel + 1, l, first, acc =>
    match skipWs l with
    | [] => none
    | c :: rest =>
      if first ∧ c = '\x7d' then some (.obj acc.reverse, rest)
      else if c = '"' then
        match parseJStr [] rest with
        | none => none
        | some (kcs, r1) =>
          match skipWs r1 with
          | ':' :: r2 =>
            match parseJVal fuel r2 with
            | none => none
            | some (v, r3) =>
              match skipWs r3 with
              | ',' :: r4 => parseJObj fuel r4 false ((String.mk kcs, v) :: acc)
              | '\x7d' :: r4 => some (.obj ((String.mk kcs, v) :: acc).reverse, r4)
              | _ => none
          | _ => none
      else none

/-- Parse the elements of a JSON array, `first` marking the position right
after the opening bracket (where an immediate closing bracket is allowed). -/
def parseJArr : Nat → List Char → Bool → List JVal → Option (JVal × List Char)
  | 0, _, _, _ => none
  | fuel + 1, l, first, acc =>
    match skipWs l with
    | ']' :: rest =>
      if first then some (.arr acc.reverse, rest) else none
    | l2 =>
      match parseJVal fuel l2 with
      | none => none
      | some (v, r1) =>
        match skipWs r1 with
        | ',' :: r2 => parseJArr fuel r2 false (v :: acc)
        | ']' :: r2 => some (.arr (v :: acc).reverse, r2)
        | _ => none

end

/-- the Python strict `json.loads`: parse one value, then require only
whitespace to remain. -/
def jsonParse (s : String) : Option JVal :=
  match parseJVal (2 * s.data.length + 4) s.data with
  | some (v, rest) => if (skipWs rest).isEmpty then some v else none
  | none => none

/-- Python `dict.get` on a decoded JSON object (later duplicate keys
overwrite earlier ones, as in `json.loads`). -/
def objGet (kvs : List (String × JVal)) (k : String) : Option JVal :=
  ((kvs.filter (fun p => p.1 == k)).getLast?).map Prod.snd

/-- Python `val.lower()` on a decoded JSON value: succeeds only on strings
(`none` models the `AttributeError` raised otherwise). -/
def jLower : JVal → Option String
  | .str s => some (pyLowerStr s)
  | _ => none

/-- Python `float(s)` on a string: optional sign, digits with optional
fraction and exponent, surrounding whitespace allowed (`inf`/`nan` and
digit underscores are out of modelled scope). -/
def parsePyFloat (s : String) : Option ℚ :=
  let l := (pyStrip s).data
  let sr : Bool × List Char :=
    match l with
    | '+' :: t => (false, t)
    | '-' :: t => (true, t)
    | _ => (false, l)
  let ip := sr.2.takeWhile Char.isDigit
  let r1 := sr.2.dropWhile Char.isDigit
  let fr : List Char × List Char :=
    match r1 with
    | '.' :: u => (u.takeWhile Char.isDigit, u.dropWhile Char.isDigit)
    | _ => ([], r1)
  if ip.isEmpty ∧ fr.1.isEmpty then none
  else
    match parseExp fr.2 with
    | none => none
    | some (en, e, r3) =>
      if !r3.isEmpty then none
      else
        let base : ℚ :=
          (digitsToNat ip : ℚ) + (digitsToNat fr.1 : ℚ) / ((10 : ℚ) ^ fr.1.length)
        some (applyExp (if sr.1 then -base else base) en e)

/-- Python `float(v)` on a decoded JSON value (`none` models the `TypeError`
or `ValueError` raised when the value cannot be coerced). -/
def pyFloat : JVal → Option ℚ
  | .num q => some q
  | .bool b => some (if b then 1 else 0)
  | .str s => parsePyFloat s
  | _ => none

/-! ## `openai_service.py` -/

/-- The dictionary `analyze_ripeness_with_openai` and `analyze_image` build on
success: `{"fruit_name": ..., "ripeness": ..., "confidence": ..., "source": ...}`. -/
structure RipenessReport where
  fruit_name : String
  ripeness : String
  confidence : ℚ
  source : String
deriving DecidableEq

/-- Result of `analyze_ripeness_with_openai`: either the success dictionary or
an `{"error": msg}` dictionary. -/
inductive RipenessOutcome where
  | ok (r : RipenessReport) : RipenessOutcome
  | err (msg : String) : RipenessOutcome
deriving DecidableEq

/-- Result of `get_fruit_name`: either `{"fruit_name": s}` or
`{"error": msg}`. -/
inductive NameOutcome where
  | name (fruit_name : String) : NameOutcome
  | error (msg : String) : NameOutcome
deriving DecidableEq

/-- An external call to a provider, as observed by the resolver: either the
reply payload or the message of the exception the call raised. -/
inductive Call (α : Type) where
  | ok (reply : α) : Call α
  | exn (msg : String) : Call α
deriving DecidableEq

/-- One `re.sub(pat ++ "\s*", "", _)` pass over the character list: each
leftmost occurrence of `pat` and the whitespace run after it is deleted.
The fuel is the initial list length, which suffices because every step
consumes at least one character. -/
def subFence (pat : List Char) : Nat → List Char → List Char
  | 0, _ => []
  | _ + 1, [] => []
  | fuel + 1, c :: t =>
    if pat.isPrefixOf (c :: t) then
      subFence pat fuel (((c :: t).drop pat.length).dropWhile isPySpace)
    else c :: subFence pat fuel t

/-- Embedding of `re.sub(pat ++ "\s*", "", s)` for a non-empty literal pattern `pat`. -/
def reSubFence (pat : String) (s : String) : String :=
  String.mk (subFence pat.data s.data.length s.data)

/-- The two fence-stripping substitutions in `analyze_ripeness_with_openai`:
`re.sub(r"```json\s*", "", text)` followed by `re.sub(r"```\s*", "", text)`. -/
def stripCodeFences (s : String) : String :=
  reSubFence "```" (reSubFence "```json" s)

/-- Embedding of the membership test `ripeness in ["unripe", "ripe", "overripe"]`. -/
def isValidRipeness (s : String) : Bool :=
  s == "unripe" || s == "ripe" || s == "overripe"

/-- The JSON-success branch of `analyze_ripeness_with_openai`: validate and
clean the decoded object.  A `none` from `jLower` or `pyFloat` models the
exception (`AttributeError` / `TypeError` / `ValueError`) that the outer handler of the function turns into an error dictionary; a non-object decode likewise
raises on `result.get`. -/
def normalizeJson (j : JVal) : RipenessOutcome :=
  match j with
  | .obj kvs =>
    match jLower ((objGet kvs "fruit_name").getD (.str "unknown")),
          jLower ((objGet kvs "ripeness").getD (.str "unknown")),
          pyFloat ((objGet kvs "confidence").getD (.num 75)) with
    | some fn, some rp, some c =>
      .ok ⟨fn, if isValidRipeness rp then rp else "ripe", pyRound2 c, "openai"⟩
    | _, _, _ => .err "could not normalize the decoded JSON object"
  | _ => .err "decoded JSON value is not an object"

/-- The if/elif chain assigning `ripeness` in the degraded (non-JSON) branch. -/
def fallbackRipeness (tl : String) : String :=
  if strContains tl "unripe" then "unripe"
  else if strContains tl "overripe" then "overripe"
  else if strContains tl "ripe" then "ripe"
  else "unknown"

/-- The `common_fruits` list scanned in the degraded branch. -/
def commonFruits : List String :=
  ["apple", "banana", "mango", "strawberry", "orange",
   "grape", "pear", "peach", "plum", "cherry"]

/-- The for-loop with break assigning `fruit_name` in the degraded branch. -/
def scanFruit (tl : String) : List String → String
  | [] => "unknown"
  | f :: fs => if strContains tl f then f else scanFruit tl fs

/-- The reply text after `strip()` and fence removal, as computed at the top
of the parsing section of `analyze_ripeness_with_openai`. -/
def cleanedReply (raw : String) : String :=
  stripCodeFences (pyStrip raw)

/-- Embedding of `analyze_ripeness_with_openai(image_bytes)`.  `clientOk` is whether the
module-level OpenAI client was configured; `resp` is the chat-completion
outcome of the call (its reply text, or the exception it raised). -/
def analyze_ripeness_with_openai (clientOk : Bool) (resp : Call String) : RipenessOutcome :=
  match clientOk with
  | false => .err "OpenAI API not configured"
  | true =>
    match resp with
    | .exn e => .err e
    | .ok raw =>
      let text := cleanedReply raw
      match jsonParse text with
      | some j => normalizeJson j
      | none =>
        let tl := pyLowerStr text
        .ok ⟨scanFruit tl commonFruits, fallbackRipeness tl, 70, "openai"⟩

/-- Embedding of `get_fruit_name(image_bytes)`.  `clientOk` is whether the OpenAI client
was configured; `resp` is the chat-completion outcome of the call (`none` models
the call raising, in which case the handler returns
`{"fruit_name": "unknown"}`). -/
def get_fruit_name (clientOk : Bool) (resp : Option String) : NameOutcome :=
  match clientOk with
  | false => .error "OpenAI API not configured"
  | true =>
    match resp with
    | none => .name "unknown"
    | some raw =>
      let text := pyLowerStr (pyStrip raw)
      let cleaned := String.mk (text.data.filter keepNameChar)
      match pySplit cleaned with
      | [] => .name "unknown"
      | t :: _ => .name t

/-! ## `cv_service.py` -/

/-- One prediction record returned by the Roboflow CV endpoint.  The fields
are optional because the code reads them with `get` and a default. -/
structure Prediction where
  «class» : Option String
  confidence : Option ℚ
deriving DecidableEq

/-- The whole external environment one `analyze_image` call observes:
availability of the two clients and the outcome of each provider call the
resolver may issue. -/
structure Env where
  /-- Whether `CLIENT is not None` in `cv_service.py`. -/
  cvAvailable : Bool
  /-- Outcome of the decode/resize/`CLIENT.infer` block: the prediction list
  of the response, or the exception message `str(e)`. -/
  cvResult : Call (List Prediction)
  /-- OpenAI client configured in `openai_service.py`. -/
  openaiAvailable : Bool
  /-- Outcome of the chat call inside `get_fruit_name`. -/
  nameResp : Option String
  /-- Outcome of the chat call inside `analyze_ripeness_with_openai`. -/
  ripenessResp : Call String
deriving DecidableEq

/-- Result of `analyze_image`: a populated report or an `{"error": msg}`
dictionary. -/
inductive AnalysisOutcome where
  | report (r : RipenessReport) : AnalysisOutcome
  | error (msg : String) : AnalysisOutcome
deriving DecidableEq

/-- The sort key `lambda x: x.get("confidence", 0)` of the `max` call. -/
def predKey (p : Prediction) : ℚ :=
  p.confidence.getD 0

/-- the Python `max(x :: xs, key)`: scan left to right, replacing the current
best only on a strictly greater key, so ties keep the first-encountered
element. -/
def pyMaxBy {α : Type} (key : α → ℚ) (x : α) (xs : List α) : α :=
  xs.foldl (fun acc y => if key acc < key y then y else acc) x

/-- Embedding of `fruit_info.get("fruit_name", "unknown")`: the name step 1 of
`analyze_image` settles on. -/
def fruitNameOf (clientOk : Bool) (resp : Option String) : String :=
  match get_fruit_name clientOk resp with
  | .name s => s
  | .error _ => "unknown"

/-- The shared OpenAI-fallback tail of `analyze_image`: try
`analyze_ripeness_with_openai`; on success report with source
`"openai_fallback"`, otherwise fail with `failMsg`. -/
def openaiFallbackResult (env : Env) (fruit_name failMsg : String) : AnalysisOutcome :=
  match analyze_ripeness_with_openai env.openaiAvailable env.ripenessResp with
  | .ok r => .report ⟨fruit_name, r.ripeness, r.confidence, "openai_fallback"⟩
  | .err _ => .error failMsg

/-- Embedding of `analyze_image(image_bytes)`: the multi-source fallback resolver. -/
def analyze_image (env : Env) : AnalysisOutcome :=
  let fruit_name := fruitNameOf env.openaiAvailable env.nameResp
  match env.cvAvailable with
  | false =>
    match analyze_ripeness_with_openai env.openaiAvailable env.ripenessResp with
    | .ok r => .report ⟨fruit_name, r.ripeness, r.confidence, "openai_primary"⟩
    | .err _ => .error "OpenAI analysis failed"
  | true =>
    match env.cvResult with
    | .exn e =>
      openaiFallbackResult env fruit_name ("CV model error and OpenAI fallback failed: " ++ e)
    | .ok preds =>
      match preds with
      | [] =>
        openaiFallbackResult env fruit_name
          "No predictions found from CV model and OpenAI fallback failed"
      | p :: ps =>
        let top := pyMaxBy predKey p ps
        let raw_class := top.«class».getD "unknown"
        if raw_class = "unknown" then
          .report ⟨fruit_name, "unknown", pyRound2 (predKey top * 100), "cv_model"⟩
        else
          match pyLastTok (pySplit raw_class) with
          | some stage =>
            .report ⟨fruit_name, stage, pyRound2 (predKey top * 100), "cv_model"⟩
          | none =>
            openaiFallbackResult env fruit_name
              "CV model error and OpenAI fallback failed: list index out of range"

/-! ## Helper lemmas -/

theorem pyMaxBy_cons {α : Type} (key : α → ℚ) (x y : α) (ys : List α) :
    pyMaxBy key x (y :: ys) = pyMaxBy key (if key x < key y then y else x) ys := rfl

theorem pyMaxBy_mem {α : Type} (key : α → ℚ) :
    ∀ (xs : List α) (x : α), pyMaxBy key x xs ∈ x :: xs := by
  intro xs
  induction xs with
  | nil => intro x; simp [pyMaxBy]
  | cons y ys ih =>
    intro x
    rw [pyMaxBy_cons]
    by_cases hxy : key x < key y
    · rw [if_pos hxy]
      exact List.mem_cons_of_mem x (ih y)
    · rw [if_neg hxy]
      rcases List.mem_cons.mp (ih x) with h | h
      · rw [h]
        exact List.mem_cons_self x (y :: ys)
      · exact List.mem_cons_of_mem _ (List.mem_cons_of_mem _ h)

theorem pyMaxBy_le {α : Type} (key : α → ℚ) :
    ∀ (xs : List α) (x z : α), z ∈ x :: xs → key z ≤ key (pyMaxBy key x xs) := by
  intro xs
  induction xs with
  | nil =>
    intro x z hz
    rcases List.mem_cons.mp hz with rfl | h
    · exact le_refl _
    · cases h
  | cons y ys ih =>
    intro x z hz
    rw [pyMaxBy_cons]
    have hxm : key x ≤ key (pyMaxBy key (if key x < key y then y else x) ys) := by
      by_cases h : key x < key y
      · rw [if_pos h]
        exact le_of_lt (lt_of_lt_of_le h (ih y y (List.mem_cons_self y ys)))
      · rw [if_neg h]
        exact ih x x (List.mem_cons_self x ys)
    have hym : key y ≤ key (pyMaxBy key (if key x < key y then y else x) ys) := by
      by_cases h : key x < key y
      · rw [if_pos h]
        exact ih y y (List.mem_cons_self y ys)
      · rw [if_neg h]
        exact le_trans (le_of_not_lt h) (ih x x (List.mem_cons_self x ys))
    rcases List.mem_cons.mp hz with rfl | hz2
    · exact hxm
    · rcases List.mem_cons.mp hz2 with rfl | hz3
      · exact hym
      · by_cases h : key x < key y
        · rw [if_pos h]
          exact ih y z (List.mem_cons_of_mem y hz3)
        · rw [if_neg h]
          exact ih x z (List.mem_cons_of_mem x hz3)

theorem pyMaxBy_first {α : Type} (key : α → ℚ) :
    ∀ (xs : List α) (x : α),
      ∃ l₁ l₂, x :: xs = l₁ ++ pyMaxBy key x xs :: l₂ ∧
        ∀ z ∈ l₁, key z < key (pyMaxBy key x xs) := by
  intro xs
  induction xs with
  | nil =>
    intro x
    exact ⟨[], [], by simp [pyMaxBy], by simp⟩
  | cons y ys ih =>
    intro x
    rw [pyMaxBy_cons]
    by_cases hxy : key x < key y
    · rw [if_pos hxy]
      obtain ⟨l₁, l₂, heq, hlt⟩ := ih y
      refine ⟨x :: l₁, l₂, ?_, ?_⟩
      · rw [List.cons_append, ← heq]
      · intro z hz
        rcases List.mem_cons.mp hz with rfl | hz2
        · exact lt_of_lt_of_le hxy (pyMaxBy_le key ys y y (List.mem_cons_self y ys))
        · exact hlt z hz2
    · rw [if_neg hxy]
      obtain ⟨l₁, l₂, heq, hlt⟩ := ih x
      cases l₁ with
      | nil =>
        simp only [List.nil_append] at heq
        injection heq with h1 h2
        refine ⟨[], y :: ys, ?_, by simp⟩
        rw [← h1, List.nil_append]
      | cons a t =>
        rw [List.cons_append] at heq
        injection heq with h1 h2
        refine ⟨x :: y :: t, l₂, ?_, ?_⟩
        · rw [List.cons_append, List.cons_append, ← h2]
        · intro z hz
          have hxm : key x < key (pyMaxBy key x ys) := by
            have := hlt a (List.mem_cons_self a t)
            rwa [← h1] at this
          rcases List.mem_cons.mp hz with rfl | hz2
          · exact hxm
          · rcases List.mem_cons.mp hz2 with rfl | hz3
            · exact lt_of_le_of_lt (le_of_not_lt hxy) hxm
            · have hz4 : z ∈ a :: t := by
                rw [← h1]
                exact List.mem_cons_of_mem x hz3
              exact hlt z hz4

/-- The four-element ripeness vocabulary of the spec. -/
def ripenessVocab : List String :=
  ["unripe", "ripe", "overripe", "unknown"]

theorem fallbackRipeness_mem (tl : String) : fallbackRipeness tl ∈ ripenessVocab := by
  unfold fallbackRipeness ripenessVocab
  split_ifs <;> simp

theorem normalizeJson_ok_ripeness (j : JVal) (r : RipenessReport)
    (h : normalizeJson j = .ok r) : r.ripeness ∈ ripenessVocab := by
  cases j with
  | obj kvs =>
    simp only [normalizeJson] at h
    split at h
    · rename_i fn rp c hfn hrp hc
      injection h with h2
      subst h2
      simp only []
      by_cases hv : isValidRipeness rp
      · rw [if_pos hv]
        unfold isValidRipeness at hv
        simp only [Bool.or_eq_true, beq_iff_eq] at hv
        rcases hv with (rfl | rfl) | rfl <;> simp [ripenessVocab]
      · rw [if_neg hv]
        simp [ripenessVocab]
    · exact absurd h (by simp)
  | null => exact absurd h (by simp [normalizeJson])
  | bool b => exact absurd h (by simp [normalizeJson])
  | num q => exact absurd h (by simp [normalizeJson])
  | str s => exact absurd h (by simp [normalizeJson])
  | arr xs => exact absurd h (by simp [normalizeJson])

theorem analyze_ripeness_ok_ripeness (b : Bool) (resp : Call String) (r : RipenessReport)
    (h : analyze_ripeness_with_openai b resp = .ok r) : r.ripeness ∈ ripenessVocab := by
  cases b with
  | false => exact absurd h (by simp [analyze_ripeness_with_openai])
  | true =>
    cases resp with
    | exn e => exact absurd h (by simp [analyze_ripeness_with_openai])
    | ok raw =>
      simp only [analyze_ripeness_with_openai] at h
      rcases hj : jsonParse (cleanedReply raw) with _ | j <;> rw [hj] at h
      · injection h with h2
        subst h2
        exact fallbackRipeness_mem _
      · exact normalizeJson_ok_ripeness j r h

/-- Every report branch of `analyze_image` fills `fruit_name` with the step-1
name from `get_fruit_name`. -/
theorem analyze_image_fruit_name (env : Env) (r : RipenessReport)
    (h : analyze_image env = .report r) :
    r.fruit_name = fruitNameOf env.openaiAvailable env.nameResp := by
  unfold analyze_image at h
  cases hcv : env.cvAvailable with
  | false =>
    rw [hcv] at h
    rcases hb : analyze_ripeness_with_openai env.openaiAvailable env.ripenessResp with rb | m <;>
      rw [hb] at h
    · injection h with h2
      rw [← h2]
    · exact absurd h (by simp)
  | true =>
    rw [hcv] at h
    cases hres : env.cvResult with
    | exn e =>
      rw [hres] at h
      unfold openaiFallbackResult at h
      rcases hb : analyze_ripeness_with_openai env.openaiAvailable env.ripenessResp with rb | m <;>
        rw [hb] at h
      · injection h with h2
        rw [← h2]
      · exact absurd h (by simp)
    | ok preds =>
      rw [hres] at h
      cases preds with
      | nil =>
        unfold openaiFallbackResult at h
        rcases hb : analyze_ripeness_with_openai env.openaiAvailable env.ripenessResp with rb | m <;>
          rw [hb] at h
        · injection h with h2
          rw [← h2]
        · exact absurd h (by simp)
      | cons p ps =>
        simp only [] at h
        by_cases hu : (pyMaxBy predKey p ps).«class».getD "unknown" = "unknown"
        · rw [if_pos hu] at h
          injection h with h2
          rw [← h2]
        · rw [if_neg hu] at h
          rcases hl : pyLastTok (pySplit ((pyMaxBy predKey p ps).«class».getD "unknown"))
              with _ | stage <;> rw [hl] at h
          · unfold openaiFallbackResult at h
            rcases hb : analyze_ripeness_with_openai env.openaiAvailable env.ripenessResp
                with rb | m <;> rw [hb] at h
            · injection h with h2
              rw [← h2]
            · exact absurd h (by simp)
          · injection h with h2
            rw [← h2]

theorem pyLastTok_of_ne_nil : ∀ l : List String, l ≠ [] → ∃ s, pyLastTok l = some s := by
  intro l
  induction l with
  | nil => intro h; exact absurd rfl h
  | cons a t ih =>
    intro _
    cases t with
    | nil => exact ⟨a, rfl⟩
    | cons b u =>
      obtain ⟨s, hs⟩ := ih (by simp)
      exact ⟨s, hs⟩

theorem scanFruit_eq_find (tl : String) :
    ∀ l : List String, scanFruit tl l = (l.find? (fun f => strContains tl f)).getD "unknown" := by
  intro l
  induction l with
  | nil => rfl
  | cons f fs ih =>
    by_cases h : strContains tl f
    · rw [List.find?_cons_of_pos _ h]
      simp [scanFruit, h]
    · rw [List.find?_cons_of_neg _ (by simp [h])]
      simp only [scanFruit, h, if_false, Bool.false_eq_true]
      exact ih

/-! ## Claims -/

/-- C1: when Provider A is available and returns a non-empty prediction list,
`analyze_image` selects the maximum-confidence prediction (ties broken by the
first-encountered prediction in the returned order), derives `ripeness` as
the last whitespace-delimited token of the winning class label (the literal
label `"unknown"` yielding `"unknown"`), sets `confidence` to the winning
score times 100 rounded to 2 decimal places, and tags `source = "cv_model"`.
The hypothesis `htok` states the presupposition that the winning label has a
last token (or is the literal `"unknown"`). -/
theorem claim_C1 (env : Env) (p : Prediction) (ps : List Prediction)
    (hA : env.cvAvailable = true)
    (hres : env.cvResult = .ok (p :: ps))
    (htok : (pyMaxBy predKey p ps).«class».getD "unknown" = "unknown" ∨
            pySplit ((pyMaxBy predKey p ps).«class».getD "unknown") ≠ []) :
    pyMaxBy predKey p ps ∈ p :: ps ∧
    (∀ q ∈ p :: ps, predKey q ≤ predKey (pyMaxBy predKey p ps)) ∧
    (∃ l₁ l₂, p :: ps = l₁ ++ pyMaxBy predKey p ps :: l₂ ∧
      ∀ q ∈ l₁, predKey q < predKey (pyMaxBy predKey p ps)) ∧
    analyze_image env =
      .report
        { fruit_name := fruitNameOf env.openaiAvailable env.nameResp
          ripeness :=
            if (pyMaxBy predKey p ps).«class».getD "unknown" = "unknown" then "unknown"
            else (pyLastTok (pySplit ((pyMaxBy predKey p ps).«class».getD "unknown"))).getD
              "unknown"
          confidence := pyRound2 (predKey (pyMaxBy predKey p ps) * 100)
          source := "cv_model" } := by
  refine ⟨pyMaxBy_mem predKey ps p, fun q hq => pyMaxBy_le predKey ps p q hq,
    pyMaxBy_first predKey ps p, ?_⟩
  unfold analyze_image
  rw [hA, hres]
  simp only []
  by_cases hu : (pyMaxBy predKey p ps).«class».getD "unknown" = "unknown"
  · rw [if_pos hu, if_pos hu]
  · rw [if_neg hu, if_neg hu]
    have hne : pySplit ((pyMaxBy predKey p ps).«class».getD "unknown") ≠ [] :=
      htok.resolve_left hu
    obtain ⟨s, hs⟩ := pyLastTok_of_ne_nil _ hne
    rw [hs]
    rfl

/-- C1 witness: the concrete example of the spec.  Predictions
with class "banana unripe" at confidence 0.4 and class "banana ripe" at
confidence 0.91 resolve to ripeness `"ripe"`, confidence `91`,
source `"cv_model"`. -/
theorem claim_C1_witness :
    analyze_image
        ⟨true,
         .ok [⟨some "banana unripe", some (4 / 10)⟩, ⟨some "banana ripe", some (91 / 100)⟩],
         true, some "banana", .exn "offline"⟩ =
      .report ⟨"banana", "ripe", 91, "cv_model"⟩ :=
  ((claim_C1
      ⟨true,
       .ok [⟨some "banana unripe", some (4 / 10)⟩, ⟨some "banana ripe", some (91 / 100)⟩],
       true, some "banana", .exn "offline"⟩
      ⟨some "banana unripe", some (4 / 10)⟩ [⟨some "banana ripe", some (91 / 100)⟩]
      rfl rfl (Or.inr (by with_unfolding_all decide))).2.2.2).trans
    (by with_unfolding_all decide)

/-- C2 counterexample: the claimed invariant "ripeness is always one of the
four enumerated values" fails on the `cv_model` path, which copies the last
token of an arbitrary CV class label without validation.  A prediction list
with class "banana rotten" at confidence 0.9 produces a successful report
whose ripeness is `"rotten"`, outside the vocabulary. -/
theorem claim_C2_counterexample :
    analyze_image ⟨true, .ok [⟨some "banana rotten", some (9 / 10)⟩], false, none, .exn "x"⟩ =
      .report ⟨"unknown", "rotten", 90, "cv_model"⟩ ∧
    "rotten" ∉ ripenessVocab := by
  constructor
  · with_unfolding_all decide
  · decide

/-- C2 amended: any successful report whose ripeness was produced by
Provider B (source not `"cv_model"`) has a ripeness value in the enumerated
vocabulary (unripe, ripe, overripe, unknown); on the `cv_model` path the
ripeness is the last token of the CV class label and is not constrained to
the vocabulary.  (`confidence` is always present on success by the shape of
`RipenessReport`.) -/
theorem claim_C2_amended (env : Env) (r : RipenessReport)
    (h : analyze_image env = .report r) (hs : r.source ≠ "cv_model") :
    r.ripeness ∈ ripenessVocab := by
  unfold analyze_image at h
  cases hcv : env.cvAvailable with
  | false =>
    rw [hcv] at h
    rcases hb : analyze_ripeness_with_openai env.openaiAvailable env.ripenessResp with rb | m <;>
      rw [hb] at h
    · injection h with h2
      have : r.ripeness = rb.ripeness := by rw [← h2]
      rw [this]
      exact analyze_ripeness_ok_ripeness _ _ _ hb
    · exact absurd h (by simp)
  | true =>
    rw [hcv] at h
    cases hres : env.cvResult with
    | exn e =>
      rw [hres] at h
      unfold openaiFallbackResult at h
      rcases hb : analyze_ripeness_with_openai env.openaiAvailable env.ripenessResp with rb | m <;>
        rw [hb] at h
      · injection h with h2
        have : r.ripeness = rb.ripeness := by rw [← h2]
        rw [this]
        exact analyze_ripeness_ok_ripeness _ _ _ hb
      · exact absurd h (by simp)
    | ok preds =>
      rw [hres] at h
      cases preds with
      | nil =>
        unfold openaiFallbackResult at h
        rcases hb : analyze_ripeness_with_openai env.openaiAvailable env.ripenessResp with rb | m <;>
          rw [hb] at h
        · injection h with h2
          have : r.ripeness = rb.ripeness := by rw [← h2]
          rw [this]
          exact analyze_ripeness_ok_ripeness _ _ _ hb
        · exact absurd h (by simp)
      | cons p ps =>
        simp only [] at h
        by_cases hu : (pyMaxBy predKey p ps).«class».getD "unknown" = "unknown"
        · rw [if_pos hu] at h
          injection h with h2
          exact absurd (by rw [← h2]) hs
        · rw [if_neg hu] at h
          rcases hl : pyLastTok (pySplit ((pyMaxBy predKey p ps).«class».getD "unknown"))
              with _ | stage <;> rw [hl] at h
          · unfold openaiFallbackResult at h
            rcases hb : analyze_ripeness_with_openai env.openaiAvailable env.ripenessResp
                with rb | m <;> rw [hb] at h
            · injection h with h2
              have : r.ripeness = rb.ripeness := by rw [← h2]
              rw [this]
              exact analyze_ripeness_ok_ripeness _ _ _ hb
            · exact absurd h (by simp)
          · injection h with h2
            exact absurd (by rw [← h2]) hs

/-- C2 witness: a concrete run on the Provider B path whose report carries a
vocabulary ripeness. -/
theorem claim_C2_witness :
    (⟨"unknown", "overripe", 70, "openai_primary"⟩ : RipenessReport).ripeness ∈ ripenessVocab :=
  claim_C2_amended ⟨false, .ok [], true, none, .ok "looks overripe"⟩
    ⟨"unknown", "overripe", 70, "openai_primary"⟩
    (by with_unfolding_all decide) (by decide)

/-- C3: `analyze_image` always returns exactly one of a report or an error
(the total function cannot raise or return a partial result), and whenever
Provider B ripeness call fails while Provider A yields no usable result
(unavailable, raised, or returned zero predictions), the outcome is an
error, never a report. -/
theorem claim_C3 (env : Env) (m : String)
    (hB : analyze_ripeness_with_openai env.openaiAvailable env.ripenessResp = .err m)
    (hA : env.cvAvailable = false ∨ (∃ e, env.cvResult = .exn e) ∨ env.cvResult = .ok []) :
    ((∃ msg, analyze_image env = .error msg) ∧ ∀ r, analyze_image env ≠ .report r) ∧
    ∀ env2 : Env,
      (∃ r, analyze_image env2 = .report r) ↔ ¬ ∃ msg, analyze_image env2 = .error msg := by
  constructor
  · have herr : ∃ msg, analyze_image env = .error msg := by
      unfold analyze_image
      rcases hA with hcv | ⟨e, hres⟩ | hres
      · rw [hcv, hB]
        exact ⟨"OpenAI analysis failed", rfl⟩
      · rcases hcv : env.cvAvailable with _ | _
        · rw [hB]
          exact ⟨"OpenAI analysis failed", rfl⟩
        · rw [hres]
          unfold openaiFallbackResult
          rw [hB]
          exact ⟨"CV model error and OpenAI fallback failed: " ++ e, rfl⟩
      · rcases hcv : env.cvAvailable with _ | _
        · rw [hB]
          exact ⟨"OpenAI analysis failed", rfl⟩
        · rw [hres]
          unfold openaiFallbackResult
          rw [hB]
          exact ⟨"No predictions found from CV model and OpenAI fallback failed", rfl⟩
    refine ⟨herr, ?_⟩
    obtain ⟨msg, hmsg⟩ := herr
    intro r hr
    rw [hmsg] at hr
    exact absurd hr (by simp)
  · intro env2
    cases h2 : analyze_image env2 with
    | report r =>
      constructor
      · intro _ hc
        obtain ⟨msg, hmsg⟩ := hc
        exact absurd hmsg (by simp)
      · intro _
        exact ⟨r, rfl⟩
    | error msg =>
      constructor
      · intro hc
        obtain ⟨r, hr⟩ := hc
        exact absurd hr (by simp)
      · intro hc
        exact absurd ⟨msg, rfl⟩ hc

/-- C3 witness: a run in which the CV call raises and the OpenAI client is
unconfigured ends in an error outcome. -/
theorem claim_C3_witness :
    (∃ msg, analyze_image ⟨true, .exn "boom", false, none, .exn "x"⟩ = .error msg) ∧
    ∀ r, analyze_image ⟨true, .exn "boom", false, none, .exn "x"⟩ ≠ .report r :=
  (claim_C3 ⟨true, .exn "boom", false, none, .exn "x"⟩ "OpenAI API not configured"
    (by decide) (Or.inr (Or.inl ⟨"boom", rfl⟩))).1

/-- C4: when Provider A is unavailable (`CLIENT is None`), a successful
Provider B ripeness analysis yields a report with source `"openai_primary"`
and Provider B ripeness and confidence, while a failed one yields the
error `"OpenAI analysis failed"`. -/
theorem claim_C4 (env : Env) (h : env.cvAvailable = false) :
    (∀ rb, analyze_ripeness_with_openai env.openaiAvailable env.ripenessResp = .ok rb →
      analyze_image env =
        .report ⟨fruitNameOf env.openaiAvailable env.nameResp, rb.ripeness, rb.confidence,
          "openai_primary"⟩) ∧
    (∀ m, analyze_ripeness_with_openai env.openaiAvailable env.ripenessResp = .err m →
      analyze_image env = .error "OpenAI analysis failed") := by
  constructor
  · intro rb hb
    unfold analyze_image
    rw [h, hb]
  · intro m hb
    unfold analyze_image
    rw [h, hb]

/-- C4 witness: with Provider A unavailable and Provider B replying with
non-JSON text containing "ripe", the result is an `"openai_primary"` report. -/
theorem claim_C4_witness :
    analyze_image ⟨false, .ok [], true, some "banana", .ok "it is ripe"⟩ =
      .report ⟨"banana", "ripe", 70, "openai_primary"⟩ :=
  ((claim_C4 ⟨false, .ok [], true, some "banana", .ok "it is ripe"⟩ rfl).1
    ⟨"unknown", "ripe", 70, "openai"⟩ (by with_unfolding_all decide)).trans
    (by with_unfolding_all decide)

/-- C5: when Provider A is available but yields no usable result — its call
raised or it returned zero predictions — `analyze_image` falls back to
Provider B: on success the source of the report is `"openai_fallback"`, and in
the zero-predictions case a Provider B failure yields the error
`"No predictions found from CV model and OpenAI fallback failed"`. -/
theorem claim_C5 (env : Env) (h : env.cvAvailable = true) :
    (∀ rb, analyze_ripeness_with_openai env.openaiAvailable env.ripenessResp = .ok rb →
      (env.cvResult = .ok [] ∨ ∃ e, env.cvResult = .exn e) →
      analyze_image env =
        .report ⟨fruitNameOf env.openaiAvailable env.nameResp, rb.ripeness, rb.confidence,
          "openai_fallback"⟩) ∧
    (∀ m, analyze_ripeness_with_openai env.openaiAvailable env.ripenessResp = .err m →
      env.cvResult = .ok [] →
      analyze_image env = .error "No predictions found from CV model and OpenAI fallback failed") := by
  constructor
  · intro rb hb hA
    unfold analyze_image
    rw [h]
    rcases hA with hres | ⟨e, hres⟩ <;> rw [hres] <;>
      unfold openaiFallbackResult <;> rw [hb]
  · intro m hb hres
    unfold analyze_image
    rw [h, hres]
    unfold openaiFallbackResult
    rw [hb]

/-- C5 witness: the concrete example of the spec.  Provider A returns an empty
prediction list and Provider B succeeds with with ripeness "overripe" and
confidence 60; the result is an `"openai_fallback"` report with that
ripeness and confidence. -/
theorem claim_C5_witness :
    analyze_image
        ⟨true, .ok [], true, some "mango",
         .ok "\x7b\"ripeness\": \"overripe\", \"confidence\": 60\x7d"⟩ =
      .report ⟨"mango", "overripe", 60, "openai_fallback"⟩ :=
  ((claim_C5
      ⟨true, .ok [], true, some "mango",
       .ok "\x7b\"ripeness\": \"overripe\", \"confidence\": 60\x7d"⟩ rfl).1
    ⟨"unknown", "overripe", 60, "openai"⟩ (by with_unfolding_all decide)
    (Or.inl rfl)).trans (by with_unfolding_all decide)

/-- C6: the `fruit_name` of any successful report equals the step-1 name
obtained from Provider B name extraction (falling back to `"unknown"` when
that call failed), independently of Provider A: two runs that differ only in
Provider A availability or result produce reports with the same
`fruit_name`. -/
theorem claim_C6 (env1 env2 : Env)
    (h1 : env1.openaiAvailable = env2.openaiAvailable)
    (h2 : env1.nameResp = env2.nameResp) :
    (∀ r, analyze_image env1 = .report r →
      r.fruit_name = fruitNameOf env1.openaiAvailable env1.nameResp) ∧
    (∀ r1 r2, analyze_image env1 = .report r1 → analyze_image env2 = .report r2 →
      r1.fruit_name = r2.fruit_name) := by
  constructor
  · intro r hr
    exact analyze_image_fruit_name env1 r hr
  · intro r1 r2 hr1 hr2
    rw [analyze_image_fruit_name env1 r1 hr1, analyze_image_fruit_name env2 r2 hr2, h1, h2]

/-- C6 witness: one run without Provider A and one with Provider A returning
a prediction whose label suggests a different fruit produce the same
`fruit_name`, taken from Provider B. -/
theorem claim_C6_witness :
    (⟨"banana", "ripe", 70, "openai_primary"⟩ : RipenessReport).fruit_name =
      (⟨"banana", "overripe", 85, "cv_model"⟩ : RipenessReport).fruit_name :=
  (claim_C6 ⟨false, .ok [], true, some "banana", .ok "it is ripe"⟩
      ⟨true, .ok [⟨some "kiwi overripe", some (85 / 100)⟩], true, some "banana", .ok "it is ripe"⟩
      rfl rfl).2
    ⟨"banana", "ripe", 70, "openai_primary"⟩ ⟨"banana", "overripe", 85, "cv_model"⟩
    (by with_unfolding_all decide) (by with_unfolding_all decide)

/-- C7: when the reply text, after fence stripping, decodes as a JSON object
whose `fruit_name` and `ripeness` entries are strings (or absent, defaulting
to `"unknown"`) and whose `confidence` entry coerces to a number (or is
absent, defaulting to 75), `analyze_ripeness_with_openai` lower-cases the two
strings, forces any ripeness outside the set unripe, ripe, overripe to `"ripe"`,
and rounds the confidence to 2 decimal places. -/
theorem claim_C7 (raw : String) (kvs : List (String × JVal)) (fn rp : String) (c : ℚ)
    (hp : jsonParse (cleanedReply raw) = some (.obj kvs))
    (hfn : (objGet kvs "fruit_name").getD (.str "unknown") = .str fn)
    (hrp : (objGet kvs "ripeness").getD (.str "unknown") = .str rp)
    (hc : pyFloat ((objGet kvs "confidence").getD (.num 75)) = some c) :
    analyze_ripeness_with_openai true (.ok raw) =
      .ok ⟨pyLowerStr fn,
        if isValidRipeness (pyLowerStr rp) then pyLowerStr rp else "ripe",
        pyRound2 c, "openai"⟩ := by
  have hred : analyze_ripeness_with_openai true (.ok raw) = normalizeJson (.obj kvs) := by
    unfold analyze_ripeness_with_openai
    simp only []
    rw [hp]
  rw [hred]
  simp only [normalizeJson]
  rw [hfn, hrp, hc]
  rfl

/-- C7 witness: the concrete example of the spec; the fenced object with
`fruit_name "Mango"`, `ripeness "ROTTEN"`, `confidence "88"` normalizes to
`fruit_name "mango"`, `ripeness "ripe"` (forced default), `confidence 88`. -/
theorem claim_C7_witness :
    analyze_ripeness_with_openai true
        (.ok "```json\n\x7b\"fruit_name\":\"Mango\",\"ripeness\":\"ROTTEN\",\"confidence\":\"88\"\x7d\n```") =
      .ok ⟨"mango", "ripe", 88, "openai"⟩ :=
  (claim_C7
    "```json\n\x7b\"fruit_name\":\"Mango\",\"ripeness\":\"ROTTEN\",\"confidence\":\"88\"\x7d\n```"
    [("fruit_name", .str "Mango"), ("ripeness", .str "ROTTEN"), ("confidence", .str "88")]
    "Mango" "ROTTEN" 88
    (by with_unfolding_all rfl) (by with_unfolding_all rfl) (by with_unfolding_all rfl)
    (by with_unfolding_all decide)).trans (by with_unfolding_all decide)

/-- C8 counterexample: on the degraded path the code scans the fixed fruit
list in LIST order and keeps the first list entry found anywhere in the
text, not the match occurring first in TEXT order.  For the non-JSON reply
`"banana then apple"`, `"banana"` occurs at position 0 and `"apple"` at
position 12, yet the returned fruit name is `"apple"`. -/
theorem claim_C8_counterexample :
    analyze_ripeness_with_openai true (.ok "banana then apple") =
      .ok ⟨"apple", "unknown", 70, "openai"⟩ ∧
    textPosOf "banana".data "banana then apple".data = some 0 ∧
    textPosOf "apple".data "banana then apple".data = some 12 ∧
    ("apple" : String) ≠ "banana" :=
  ⟨by with_unfolding_all decide, by decide, by decide, by decide⟩

/-- C8 amended: for reply text that fails strict JSON parsing,
`analyze_ripeness_with_openai` assigns ripeness by scanning the lower-cased
text for `"unripe"`, `"overripe"`, `"ripe"` in that priority order
(defaulting to `"unknown"`), assigns `fruit_name` as the first entry of the
fixed list apple, banana, mango, strawberry, orange, grape, pear, peach,
plum, cherry — in LIST-priority order, regardless of position in the text —
whose name occurs in the text (defaulting to `"unknown"`), and returns
confidence 70 with source `"openai"`. -/
theorem claim_C8_amended (raw : String)
    (hp : jsonParse (cleanedReply raw) = none) :
    ∃ r, analyze_ripeness_with_openai true (.ok raw) = .ok r ∧
      r.confidence = 70 ∧ r.source = "openai" ∧
      (strContains (pyLowerStr (cleanedReply raw)) "unripe" = true → r.ripeness = "unripe") ∧
      (strContains (pyLowerStr (cleanedReply raw)) "unripe" = false →
        strContains (pyLowerStr (cleanedReply raw)) "overripe" = true →
        r.ripeness = "overripe") ∧
      (strContains (pyLowerStr (cleanedReply raw)) "unripe" = false →
        strContains (pyLowerStr (cleanedReply raw)) "overripe" = false →
        strContains (pyLowerStr (cleanedReply raw)) "ripe" = true → r.ripeness = "ripe") ∧
      (strContains (pyLowerStr (cleanedReply raw)) "unripe" = false →
        strContains (pyLowerStr (cleanedReply raw)) "overripe" = false →
        strContains (pyLowerStr (cleanedReply raw)) "ripe" = false → r.ripeness = "unknown") ∧
      r.fruit_name =
        (commonFruits.find? (fun f => strContains (pyLowerStr (cleanedReply raw)) f)).getD
          "unknown" := by
  refine ⟨⟨scanFruit (pyLowerStr (cleanedReply raw)) commonFruits,
    fallbackRipeness (pyLowerStr (cleanedReply raw)), 70, "openai"⟩,
    ?_, rfl, rfl, ?_, ?_, ?_, ?_, scanFruit_eq_find _ commonFruits⟩
  · unfold analyze_ripeness_with_openai
    simp only []
    rw [hp]
  · intro hu
    simp [fallbackRipeness, hu]
  · intro hu ho
    simp [fallbackRipeness, hu, ho]
  · intro hu ho hri
    simp [fallbackRipeness, hu, ho, hri]
  · intro hu ho hri
    simp [fallbackRipeness, hu, ho, hri]

/-- C8 witness (for the amended statement): the concrete example of the spec.
The non-JSON reply `"This mango looks quite unripe and firm."` yields
ripeness `"unripe"`, fruit `"mango"`, confidence 70, source `"openai"`. -/
theorem claim_C8_witness :
    analyze_ripeness_with_openai true (.ok "This mango looks quite unripe and firm.") =
      .ok ⟨"mango", "unripe", 70, "openai"⟩ := by
  obtain ⟨r, h1, h2, h3, h4, -, -, -, h8⟩ :=
    claim_C8_amended "This mango looks quite unripe and firm." (by with_unfolding_all rfl)
  obtain ⟨a, b, cq, d⟩ := r
  have ha : a = "mango" := by
    have h8b : a =
        (commonFruits.find?
          (fun f =>
            strContains (pyLowerStr (cleanedReply "This mango looks quite unripe and firm."))
              f)).getD "unknown" := h8
    exact h8b.trans (by with_unfolding_all decide)
  have hb : b = "unripe" := h4 (by with_unfolding_all decide)
  have hcq : cq = 70 := h2
  have hd : d = "openai" := h3
  subst ha
  subst hb
  subst hcq
  subst hd
  exact h1

/-- C9: `get_fruit_name`, when the OpenAI client is configured, never
returns an error: it lower-cases and strips the reply, removes every
character outside `[a-z\s]`, and returns the first whitespace token of the
cleaned text (`"unknown"` when no token remains, and `"unknown"` when the
provider call raised); the raw reply `"Banana!!"` yields `"banana"`. -/
theorem claim_C9 (raw : String) :
    get_fruit_name true (some raw) =
      .name ((pySplit (String.mk ((pyLowerStr (pyStrip raw)).data.filter keepNameChar))).headD
        "unknown") ∧
    get_fruit_name true none = .name "unknown" ∧
    (∀ resp, ∃ s, get_fruit_name true resp = .name s) ∧
    get_fruit_name true (some "Banana!!") = .name "banana" := by
  refine ⟨?_, rfl, ?_, by decide⟩
  · unfold get_fruit_name
    cases h : pySplit (String.mk ((pyLowerStr (pyStrip raw)).data.filter keepNameChar)) with
    | nil =>
      simp only []
      rw [h]
      rfl
    | cons t ts =>
      simp only []
      rw [h]
      rfl
  · intro resp
    cases resp with
    | none => exact ⟨"unknown", rfl⟩
    | some raw2 =>
      cases h : pySplit (String.mk ((pyLowerStr (pyStrip raw2)).data.filter keepNameChar)) with
      | nil =>
        refine ⟨"unknown", ?_⟩
        unfold get_fruit_name
        simp only []
        rw [h]
      | cons t ts =>
        refine ⟨t, ?_⟩
        unfold get_fruit_name
        simp only []
        rw [h]

/-- C9 witness: instantiation at the example of the spec `"Banana!!"`. -/
theorem claim_C9_witness :
    get_fruit_name true (some "Banana!!") = .name "banana" :=
  (claim_C9 "Banana!!").2.2.2

/-- C10: every successful result of the JSON-success path carries the source
tag `"openai"` (which the spec documents only for the degraded path) and a
confidence that is a whole number of hundredths, i.e. rounded to two decimal
places. -/
theorem claim_C10 (raw : String) (j : JVal)
    (hp : jsonParse (cleanedReply raw) = some j)
    (r : RipenessReport) (hr : analyze_ripeness_with_openai true (.ok raw) = .ok r) :
    r.source = "openai" ∧ ∃ n : ℤ, r.confidence = (n : ℚ) / 100 := by
  have hmain : normalizeJson j = .ok r := by
    have hred : analyze_ripeness_with_openai true (.ok raw) = normalizeJson j := by
      unfold analyze_ripeness_with_openai
      simp only []
      rw [hp]
    rw [← hred, hr]
  cases j with
  | obj kvs =>
    simp only [normalizeJson] at hmain
    split at hmain
    · rename_i fn rp c hfn hrp hc
      injection hmain with h2
      subst h2
      exact ⟨rfl, pyRoundHalfEven (c * 100), rfl⟩
    · exact absurd hmain (by simp)
  | null => exact absurd hmain (by simp [normalizeJson])
  | bool b => exact absurd hmain (by simp [normalizeJson])
  | num q => exact absurd hmain (by simp [normalizeJson])
  | str s => exact absurd hmain (by simp [normalizeJson])
  | arr xs => exact absurd hmain (by simp [normalizeJson])

/-- C10 witness: a JSON reply with only a confidence entry still comes back
with source `"openai"` and a two-decimal confidence. -/
theorem claim_C10_witness :
    (⟨"unknown", "ripe", 5, "openai"⟩ : RipenessReport).source = "openai" ∧
    ∃ n : ℤ, (⟨"unknown", "ripe", 5, "openai"⟩ : RipenessReport).confidence = (n : ℚ) / 100 :=
  claim_C10 "\x7b\"confidence\": 5\x7d" (.obj [("confidence", .num 5)])
    (by with_unfolding_all rfl) ⟨"unknown", "ripe", 5, "openai"⟩
    (by with_unfolding_all decide)
